import Mathlib

/-!
Shallow embedding of the Kenya E-Campaign backend (an Express + Supabase
request-routing server). The repository ships two server files: the primary
one (routes: register, verify-email, login, forgot/reset-password,
apply-politician, admin approve/reject, manifesto, comment, rate, ratings
summary, ground updates / likes / reposts) and a second, earlier version of
the same server with overlapping routes. Handlers are modelled as pure
functions from a database state and a request to a response paired with the
new database state. PostgREST operations are modelled on lists of rows:
`.single()` succeeds exactly when one row matches, `.update().eq(...)` maps
over all matching rows, `.insert` appends a row with a fresh id.
-/

/-- A row of the `users` table. The column set is the one the source reads
and writes: register inserts username, email, password_hash, role,
email_verified, verify_code, verify_code_expires; forgot/reset-password use
reset_code and reset_code_expires; login reads is_active and email_verified.
Timestamps are modelled as natural numbers (milliseconds); a null column is
`none`. -/
structure UserRow where
  id : Nat
  username : String
  email : String
  password_hash : String
  role : String
  is_active : Bool
  email_verified : Bool
  verify_code : Option String
  verify_code_expires : Option Nat
  reset_code : Option String
  reset_code_expires : Option Nat
  deriving Repr, DecidableEq

/-- A row of the `politician_applications` table, as inserted by
POST /apply-politician. -/
structure ApplicationRow where
  id : Nat
  user_id : Nat
  full_name : String
  seat : String
  county : String
  constituency : String
  party : String
  motivation : String
  fee : Nat
  status : String
  deriving Repr, DecidableEq

/-- A row of the `politician_profiles` table, as written by the approval
workflow. -/
structure ProfileRow where
  id : Nat
  user_id : Nat
  full_name : String
  seat : String
  county : String
  constituency : String
  party : String
  bio : String
  is_verified : Bool
  deriving Repr, DecidableEq

/-- A row of the `ground_updates` table; `repost_of` is the nullable
self-reference recorded by POST /ground-repost. -/
structure GroundRow where
  id : Nat
  user_id : Nat
  location : String
  category : String
  content : String
  repost_of : Option Nat
  deriving Repr, DecidableEq

/-- A row of the `comments` table, as inserted by POST /comment. -/
structure CommentRow where
  id : Nat
  user_id : Nat
  target_type : String
  target_id : Nat
  content : String
  deriving Repr, DecidableEq

/-- A row of the `ratings` table, as written by POST /rate. Rating values
are JSON numbers; they are modelled as rationals. -/
structure RatingRow where
  user_id : Nat
  target_type : String
  target_id : Nat
  rating : ℚ
  deriving Repr, DecidableEq

/-- The relational store reachable through the Supabase client, restricted
to the tables the verified claims touch. `nextId` models the fresh id the
store assigns to inserted rows. -/
structure DB where
  users : List UserRow
  politician_applications : List ApplicationRow
  politician_profiles : List ProfileRow
  ground_updates : List GroundRow
  comments : List CommentRow
  ratings : List RatingRow
  nextId : Nat
  deriving Repr, DecidableEq

/-- PostgREST `.single()`: the data is returned exactly when the filtered
result set has one row; zero rows or several rows yield an error, which
every handler of the source observes as falsy data. -/
def single {α : Type} : List α → Option α
  | [x] => some x
  | _ => none

/-- Models the opaque one-way bcrypt hash (an external collaborator of the
repository): `bcrypt.hash(p, 10)` is embedded as an injective tagging
function, so that `bcryptCompare` succeeds exactly on the hashed password. -/
def bcryptHash (password : String) : String := "bcrypt$" ++ password

/-- Models `bcrypt.compare(password, hash)`. -/
def bcryptCompare (password hash : String) : Bool := hash == bcryptHash password

/-- Responses of POST /login (primary version, source lines 138-188). -/
inductive LoginRes where
  | errFields
  | errInvalidCred
  | errSuspended
  | errVerifyFirst
  | ok (id : Nat) (username email role : String)
  deriving Repr, DecidableEq

/-- POST /login of the primary server file: validate presence of email and
password, select the user by email with `.single()`, answer the generic
credential error if that fails, then check `is_active`, then compare the
password against the stored hash, then check `email_verified`, and finally
answer the profile payload. The order of the checks is the one in the
source: the suspension check precedes the password comparison, the
verified-email check follows it. -/
def loginHandler (users : List UserRow) (email password : String) : LoginRes :=
  if email = "" ∨ password = "" then .errFields
  else
    match single (users.filter (fun u => u.email == email)) with
    | none => .errInvalidCred
    | some user =>
      if ¬ user.is_active then .errSuspended
      else if ¬ bcryptCompare password user.password_hash then .errInvalidCred
      else if ¬ user.email_verified then .errVerifyFirst
      else .ok user.id user.username user.email user.role

/-- Sanity check: a verified active account logs in with its password. -/
theorem loginHandler_ok_example :
    loginHandler
      [{ id := 1, username := "a", email := "a@x.com",
         password_hash := bcryptHash "pw", role := "voter", is_active := true,
         email_verified := true, verify_code := none,
         verify_code_expires := none, reset_code := none,
         reset_code_expires := none }] "a@x.com" "pw" =
      .ok 1 "a" "a@x.com" "voter" := by decide

/-- Responses of POST /verify-email. -/
inductive VerifyRes where
  | errInvalid
  | okVerified
  deriving Repr, DecidableEq

/-- POST /verify-email (source lines 110-134): select the user by email;
fail with the undifferentiated invalid-or-expired error when the user is
missing, the stored code differs from the supplied one, or the current time
is past the stored expiry (`new Date(null)` is the epoch, so a null expiry
always counts as expired). On success the source updates the matching rows
with `email_verified: true, verify_code: null` and writes null to the column
`verification_code_expires` — a column name that appears nowhere else; the
column the rest of the source uses is `verify_code_expires`, which this
update therefore leaves unchanged. -/
def verifyEmail (db : DB) (email code : String) (now : Nat) : VerifyRes × DB :=
  match single (db.users.filter (fun u => u.email == email)) with
  | none => (.errInvalid, db)
  | some user =>
    if user.verify_code ≠ some code ∨ user.verify_code_expires.getD 0 < now then
      (.errInvalid, db)
    else
      (.okVerified,
        { db with
            users := db.users.map (fun u =>
              if u.email == email then
                { u with email_verified := true, verify_code := none }
              else u) })

/-- Responses of POST /reset-password. -/
inductive ResetRes where
  | errInvalid
  | okReset
  deriving Repr, DecidableEq

/-- POST /reset-password (source lines 223-240): select the user by email;
fail with the undifferentiated invalid-or-expired error when the user is
missing, the stored reset code differs, or the expiry is past; on success
store the new bcrypt hash and clear both `reset_code` and
`reset_code_expires`. -/
def resetPassword (db : DB) (email code password : String) (now : Nat) :
    ResetRes × DB :=
  match single (db.users.filter (fun u => u.email == email)) with
  | none => (.errInvalid, db)
  | some user =>
    if user.reset_code ≠ some code ∨ user.reset_code_expires.getD 0 < now then
      (.errInvalid, db)
    else
      (.okReset,
        { db with
            users := db.users.map (fun u =>
              if u.email == email then
                { u with password_hash := bcryptHash password,
                         reset_code := none, reset_code_expires := none }
              else u) })

/-- The body of POST /apply-politician. JSON fields absent from the request
are falsy in the source; a missing string is modelled as `""` and a missing
number as `0`. -/
structure ApplyReq where
  user_id : Nat
  full_name : String
  seat : String
  county : String
  constituency : String
  party : String
  motivation : String
  fee : Nat
  deriving Repr, DecidableEq

/-- Responses of POST /apply-politician. -/
inductive ApplyRes where
  | errMissing
  | errCounty
  | errDuplicate
  | okApplied
  deriving Repr, DecidableEq

/-- POST /apply-politician (source lines 242-302): require user_id,
full_name, seat, motivation and fee; require county unless the seat is
"President"; reject when `.single()` on the applications of this user
returns a row (any status); otherwise insert a fresh row with
status "pending". -/
def applyPolitician (db : DB) (r : ApplyReq) : ApplyRes × DB :=
  if r.user_id = 0 ∨ r.full_name = "" ∨ r.seat = "" ∨ r.motivation = "" ∨
      r.fee = 0 then
    (.errMissing, db)
  else if r.seat ≠ "President" ∧ r.county = "" then (.errCounty, db)
  else
    match single (db.politician_applications.filter
        (fun a => a.user_id == r.user_id)) with
    | some _ => (.errDuplicate, db)
    | none =>
      (.okApplied,
        { db with
            politician_applications := db.politician_applications ++
              [{ id := db.nextId, user_id := r.user_id,
                 full_name := r.full_name, seat := r.seat, county := r.county,
                 constituency := r.constituency, party := r.party,
                 motivation := r.motivation, fee := r.fee,
                 status := "pending" }],
            nextId := db.nextId + 1 })

/-- `requireAdmin` (source lines 39-47): select the role of the user whose
id is admin_id with `.single()` and test it against "admin". -/
def requireAdmin (db : DB) (admin_id : Nat) : Bool :=
  match single (db.users.filter (fun u => u.id == admin_id)) with
  | none => false
  | some u => u.role == "admin"

/-- Responses of POST /admin/approve-politician and
POST /admin/reject-politician (primary version). -/
inductive AdminRes where
  | errAdminOnly
  | errInvalidApp
  | okDone
  deriving Repr, DecidableEq

/-- POST /admin/approve-politician of the primary server file (source lines
323-360): admin gate; fetch the application with `.single()`; reject with
"Invalid application" when it is missing or its status is not "pending";
otherwise (a) set role "politician" on the users whose id is the
application user_id, (b) upsert a politician_profiles row keyed by user_id
with the application fields copied (bio from motivation) and
is_verified true, (c) set the application status to "approved". -/
def approvePolitician (db : DB) (application_id admin_id : Nat) :
    AdminRes × DB :=
  if ¬ requireAdmin db admin_id then (.errAdminOnly, db)
  else
    match single (db.politician_applications.filter
        (fun a => a.id == application_id)) with
    | none => (.errInvalidApp, db)
    | some appData =>
      if appData.status ≠ "pending" then (.errInvalidApp, db)
      else
        let users1 := db.users.map (fun u =>
          if u.id == appData.user_id then { u with role := "politician" }
          else u)
        let profiles1 :=
          if db.politician_profiles.any
              (fun p => p.user_id == appData.user_id) then
            db.politician_profiles.map (fun p =>
              if p.user_id == appData.user_id then
                { p with full_name := appData.full_name,
                         seat := appData.seat, county := appData.county,
                         constituency := appData.constituency,
                         party := appData.party, bio := appData.motivation,
                         is_verified := true }
              else p)
          else
            db.politician_profiles ++
              [{ id := db.nextId, user_id := appData.user_id,
                 full_name := appData.full_name, seat := appData.seat,
                 county := appData.county,
                 constituency := appData.constituency,
                 party := appData.party, bio := appData.motivation,
                 is_verified := true }]
        let apps1 := db.politician_applications.map (fun a =>
          if a.id == application_id then { a with status := "approved" }
          else a)
        (.okDone,
          { db with users := users1, politician_profiles := profiles1,
                    politician_applications := apps1,
                    nextId := db.nextId + 1 })

/-- POST /admin/reject-politician of the primary server file (source lines
361-374): admin gate, then unconditionally set status "rejected" on the
rows whose id is application_id — the current status is never read. -/
def rejectPolitician (db : DB) (application_id admin_id : Nat) :
    AdminRes × DB :=
  if ¬ requireAdmin db admin_id then (.errAdminOnly, db)
  else
    (.okDone,
      { db with
          politician_applications := db.politician_applications.map (fun a =>
            if a.id == application_id then { a with status := "rejected" }
            else a) })

/-- Responses of POST /admin/approve-politician in the second server file. -/
inductive AdminRes2 where
  | errIdRequired
  | errNotFound
  | okApproved
  deriving Repr, DecidableEq

/-- POST /admin/approve-politician of the second server file (source lines
1147-1197): no admin gate (only application_id is read from the body);
fetch the application with `.single()` and reject only when it is missing —
the status is not checked; then promote the user, insert (not upsert) a
politician_profiles row, and set the status to "approved". -/
def approvePoliticianV2 (db : DB) (application_id : Nat) : AdminRes2 × DB :=
  if application_id = 0 then (.errIdRequired, db)
  else
    match single (db.politician_applications.filter
        (fun a => a.id == application_id)) with
    | none => (.errNotFound, db)
    | some appData =>
      let users1 := db.users.map (fun u =>
        if u.id == appData.user_id then { u with role := "politician" }
        else u)
      let profiles1 := db.politician_profiles ++
        [{ id := db.nextId, user_id := appData.user_id,
           full_name := appData.full_name, seat := appData.seat,
           county := appData.county, constituency := appData.constituency,
           party := appData.party, bio := appData.motivation,
           is_verified := true }]
      let apps1 := db.politician_applications.map (fun a =>
        if a.id == application_id then { a with status := "approved" }
        else a)
      (.okApproved,
        { db with users := users1, politician_profiles := profiles1,
                  politician_applications := apps1,
                  nextId := db.nextId + 1 })

/-- Responses of POST /ground-repost. `thrownTypeError` is the outcome in
which the handler throws before sending any response: the source fetches
the original row without a null check and immediately reads
`original.location`, and the handler body has no try/catch, so a missing
source row raises a TypeError that becomes an unhandled rejection — the
caller receives no JSON error at all. -/
inductive RepostRes where
  | errMissing
  | thrownTypeError
  | okReposted
  deriving Repr, DecidableEq

/-- POST /ground-repost (source lines 908-936): require user_id and
ground_id; fetch the source row with `.single()`; when present, insert a
fresh ground_updates row copying location, category and content, with
repost_of set to the source id. When the source row is absent the handler
throws (see `RepostRes.thrownTypeError`) and inserts nothing. -/
def groundRepost (db : DB) (user_id ground_id : Nat) : RepostRes × DB :=
  if user_id = 0 ∨ ground_id = 0 then (.errMissing, db)
  else
    match single (db.ground_updates.filter (fun g => g.id == ground_id)) with
    | none => (.thrownTypeError, db)
    | some original =>
      (.okReposted,
        { db with
            ground_updates := db.ground_updates ++
              [{ id := db.nextId, user_id := user_id,
                 location := original.location,
                 category := original.category,
                 content := original.content,
                 repost_of := some ground_id }],
            nextId := db.nextId + 1 })

/-- Modelled from the spec: no route of the source edits an existing
ground_updates row, but the spec states that "later edits to X do not alter
the repost"; this models the generic later edit — an update of the
location, category and content of the rows whose id is X, leaving every
other row untouched, as a PostgREST `update().eq('id', X)` would. -/
def editGroundUpdate (db : DB) (ground_id : Nat)
    (location category content : String) : DB :=
  { db with
      ground_updates := db.ground_updates.map (fun g =>
        if g.id == ground_id then
          { g with location := location, category := category,
                   content := content }
        else g) }

/-- Substring test on lists of characters, used to model the JavaScript
`String.prototype.includes`. -/
def listHasSub {α : Type} [BEq α] : List α → List α → Bool
  | _, [] => true
  | [], _ :: _ => false
  | a :: as, w => (w.isPrefixOf (a :: as)) || listHasSub as w

/-- Models `text.includes(word)` on strings. -/
def strHasSub (text word : String) : Bool := listHasSub text.toList word.toList

/-- Models `content.toLowerCase()` (ASCII case folding). -/
def lowerStr (s : String) : String := String.mk (s.toList.map Char.toLower)

/-- The fixed banned-word list of POST /comment. -/
def bannedWords : List String := ["kill", "hate", "tribe", "idiot"]

/-- The body of POST /comment. The source destructures only user_id,
target_id and content; a target_type supplied by the caller is carried here
to record that the handler ignores it. -/
structure CommentReq where
  user_id : Nat
  target_id : Nat
  content : String
  target_type : String
  deriving Repr, DecidableEq

/-- Responses of POST /comment. -/
inductive CommentRes where
  | errFields
  | errBanned
  | errNoUser
  | okCommented
  deriving Repr, DecidableEq

/-- POST /comment (source lines 555-603): require user_id, target_id and
content; reject when the lower-cased content contains a banned word;
require the user row to exist; then insert a comments row whose target_type
is the fixed string "manifesto". -/
def postComment (db : DB) (r : CommentReq) : CommentRes × DB :=
  if r.user_id = 0 ∨ r.target_id = 0 ∨ r.content = "" then (.errFields, db)
  else if bannedWords.any (fun w => strHasSub (lowerStr r.content) w) then
    (.errBanned, db)
  else
    match single (db.users.filter (fun u => u.id == r.user_id)) with
    | none => (.errNoUser, db)
    | some _ =>
      (.okCommented,
        { db with
            comments := db.comments ++
              [{ id := db.nextId, user_id := r.user_id,
                 target_type := "manifesto", target_id := r.target_id,
                 content := r.content }],
            nextId := db.nextId + 1 })

/-- The body of POST /rate. The source destructures only user_id, target_id
and rating; a target_type supplied by the caller is carried here to record
that the handler ignores it. -/
structure RateReq where
  user_id : Nat
  target_id : Nat
  rating : ℚ
  target_type : String
  deriving Repr, DecidableEq

/-- Responses of POST /rate. -/
inductive RateRes where
  | errFields
  | errRange
  | okRated
  deriving Repr, DecidableEq

/-- POST /rate (source lines 636-669): require the fields, require the
rating to lie in [1,5], then upsert a ratings row keyed by
(user_id, target_type, target_id) with target_type the fixed string
"manifesto": an existing row for that key is overwritten, otherwise a row
is inserted. -/
def postRate (db : DB) (r : RateReq) : RateRes × DB :=
  if r.user_id = 0 ∨ r.target_id = 0 ∨ r.rating = 0 then (.errFields, db)
  else if r.rating < 1 ∨ 5 < r.rating then (.errRange, db)
  else
    let payload : RatingRow :=
      { user_id := r.user_id, target_type := "manifesto",
        target_id := r.target_id, rating := r.rating }
    if db.ratings.any (fun q =>
        q.user_id == r.user_id && q.target_type == "manifesto" &&
        q.target_id == r.target_id) then
      (.okRated,
        { db with
            ratings := db.ratings.map (fun q =>
              if q.user_id == r.user_id && q.target_type == "manifesto" &&
                  q.target_id == r.target_id then payload else q) })
    else (.okRated, { db with ratings := db.ratings ++ [payload] })

/-- Models `(x).toFixed(1)` on the nonnegative numbers the summary divides:
rounding to one decimal place, ties away from zero (for nonnegative values,
ties up). -/
def round1 (q : ℚ) : ℚ := (round (10 * q) : ℤ) / 10

/-- Responses of GET /ratings/:target_id. -/
inductive SummaryRes where
  | okSummary (average : ℚ) (count : Nat)
  deriving Repr, DecidableEq

/-- GET /ratings/:target_id (source lines 671-700): select the rating
column of the rows with target_type "manifesto" and the given target_id;
answer average 0 and count 0 when no row matches, otherwise reduce the
ratings to their sum, divide by the row count and round with
`.toFixed(1)`. -/
def ratingsSummary (db : DB) (target_id : Nat) : SummaryRes :=
  let rows := db.ratings.filter (fun q =>
    q.target_type == "manifesto" && q.target_id == target_id)
  if rows.length = 0 then .okSummary 0 0
  else
    .okSummary
      (round1 ((rows.foldl (fun s q => s + q.rating) 0) / rows.length))
      rows.length

/-! ## Helper lemmas -/

theorem single_eq_some_iff {α : Type} {l : List α} {x : α} :
    single l = some x ↔ l = [x] := by
  cases l with
  | nil => simp [single]
  | cons a t => cases t <;> simp [single]

theorem single_eq_none_iff {α : Type} {l : List α} :
    single l = none ↔ l.length ≠ 1 := by
  cases l with
  | nil => simp [single]
  | cons a t => cases t <;> simp [single]

theorem filter_map_update {α : Type} (p : α → Bool) (g : α → α) (l : List α)
    (hkey : ∀ a, p (g a) = p a) :
    (l.map (fun a => if p a then g a else a)).filter p = (l.filter p).map g := by
  induction l with
  | nil => simp
  | cons a t ih =>
    by_cases h : p a
    · simp [h, hkey, ih]
    · simp [h, ih]

theorem countP_le_one_filter {α : Type} {p : α → Bool} {l : List α}
    (h1 : l.countP p ≤ 1) (h2 : ∃ a ∈ l, p a) : ∃ x, l.filter p = [x] := by
  have hlen : (l.filter p).length = l.countP p :=
    (List.countP_eq_length_filter p l).symm
  obtain ⟨a, ha, hpa⟩ := h2
  have hmem : a ∈ l.filter p := List.mem_filter.mpr ⟨ha, hpa⟩
  have hpos : 0 < (l.filter p).length := List.length_pos.mpr (by
    intro hnil; rw [hnil] at hmem; exact absurd hmem (List.not_mem_nil a))
  have hone : (l.filter p).length = 1 := by omega
  exact List.length_eq_one.mp hone

/-! ## C1 — wrong-password responses and the account-status checks -/

/-- A reference active account used in the concrete scenarios. -/
def uActive : UserRow :=
  { id := 1, username := "alice", email := "a@x.com",
    password_hash := bcryptHash "pw", role := "voter", is_active := true,
    email_verified := true, verify_code := none, verify_code_expires := none,
    reset_code := none, reset_code_expires := none }

/-- The same account with is_active set to false. -/
def uSuspended : UserRow := { uActive with is_active := false }

/-- C1 counterexample: two accounts that differ only in is_active answer a
wrong-password login attempt differently — the suspended one leaks its
status ("Account is suspended") while the active one gets the generic
credential error, because the source checks is_active before comparing the
password. This refutes the claim that the wrong-password response is
independent of the is_active flag. -/
theorem login_wrong_password_not_status_blind :
    bcryptCompare "wrong" uActive.password_hash = false ∧
    uSuspended = { uActive with is_active := false } ∧
    loginHandler [uActive] "a@x.com" "wrong" = .errInvalidCred ∧
    loginHandler [uSuspended] "a@x.com" "wrong" = .errSuspended ∧
    LoginRes.errSuspended ≠ LoginRes.errInvalidCred := by
  refine ⟨by decide, by decide, by decide, by decide, by decide⟩

/-- C1 (amended): when the email lookup succeeds and the supplied password
does not verify, the response depends only on is_active: an active account
receives the generic credential error — independent of email_verified,
whose check runs only after the credential match — while a suspended
account receives the distinct suspended error, because the is_active check
precedes password verification. -/
theorem login_wrong_password_response (users : List UserRow)
    (email password : String) (u : UserRow)
    (hemail : email ≠ "") (hpw : password ≠ "")
    (hu : single (users.filter (fun v => v.email == email)) = some u)
    (hcmp : bcryptCompare password u.password_hash = false) :
    loginHandler users email password =
      (if u.is_active then .errInvalidCred else .errSuspended) := by
  unfold loginHandler
  rw [if_neg (by simp [hemail, hpw]), hu]
  cases hact : u.is_active with
  | false => simp [hact]
  | true => simp [hact, hcmp]

/-- Witness for C1 at a concrete input. -/
theorem login_wrong_password_response_witness :
    loginHandler [uActive] "a@x.com" "badpw" = .errInvalidCred := by
  have h := login_wrong_password_response [uActive] "a@x.com" "badpw" uActive
    (by decide) (by decide) (by decide) (by decide)
  simpa using h

/-! ## C2 — postconditions of approving a pending application -/

/-- C2: approving an existing pending application as an admin succeeds and
establishes the three postconditions — the applicant role is "politician",
exactly one politician_profiles row for the applicant exists, verified and
with the application fields copied (bio from motivation), and the
application status is "approved". The well-formedness hypotheses state that
the applicant exists and that the store holds at most one profile row per
user, which the approval workflow itself maintains. -/
theorem approve_pending_postconditions (db : DB) (aid adm : Nat)
    (a : ApplicationRow)
    (hadmin : requireAdmin db adm = true)
    (happ : single (db.politician_applications.filter
        (fun x => x.id == aid)) = some a)
    (hpend : a.status = "pending")
    (huser : ∃ u ∈ db.users, u.id = a.user_id)
    (hprof : db.politician_profiles.countP
        (fun p => p.user_id == a.user_id) ≤ 1) :
    (approvePolitician db aid adm).1 = .okDone ∧
    (∃ u ∈ (approvePolitician db aid adm).2.users,
        u.id = a.user_id ∧ u.role = "politician") ∧
    (∀ u ∈ (approvePolitician db aid adm).2.users,
        u.id = a.user_id → u.role = "politician") ∧
    (∃ p, (approvePolitician db aid adm).2.politician_profiles.filter
          (fun q => q.user_id == a.user_id) = [p] ∧
        p.is_verified = true ∧ p.full_name = a.full_name ∧ p.seat = a.seat ∧
        p.county = a.county ∧ p.constituency = a.constituency ∧
        p.party = a.party ∧ p.bio = a.motivation) ∧
    (approvePolitician db aid adm).2.politician_applications.filter
        (fun x => x.id == aid) = [{ a with status := "approved" }] := by
  have hres : approvePolitician db aid adm =
      (.okDone,
        { db with
            users := db.users.map (fun u =>
              if u.id == a.user_id then { u with role := "politician" }
              else u),
            politician_profiles :=
              if db.politician_profiles.any
                  (fun p => p.user_id == a.user_id) then
                db.politician_profiles.map (fun p =>
                  if p.user_id == a.user_id then
                    { p with full_name := a.full_name, seat := a.seat,
                             county := a.county,
                             constituency := a.constituency,
                             party := a.party, bio := a.motivation,
                             is_verified := true }
                  else p)
              else
                db.politician_profiles ++
                  [{ id := db.nextId, user_id := a.user_id,
                     full_name := a.full_name, seat := a.seat,
                     county := a.county, constituency := a.constituency,
                     party := a.party, bio := a.motivation,
                     is_verified := true }],
            politician_applications := db.politician_applications.map
              (fun x =>
                if x.id == aid then { x with status := "approved" } else x),
            nextId := db.nextId + 1 }) := by
    unfold approvePolitician
    rw [hadmin, happ]
    simp [hpend]
  have hfst : (approvePolitician db aid adm).1 = .okDone := by rw [hres]
  have husers : (approvePolitician db aid adm).2.users =
      db.users.map (fun u =>
        if u.id == a.user_id then { u with role := "politician" } else u) := by
    rw [hres]
  have hprofs : (approvePolitician db aid adm).2.politician_profiles =
      (if db.politician_profiles.any (fun p => p.user_id == a.user_id) then
        db.politician_profiles.map (fun p =>
          if p.user_id == a.user_id then
            { p with full_name := a.full_name, seat := a.seat,
                     county := a.county, constituency := a.constituency,
                     party := a.party, bio := a.motivation,
                     is_verified := true }
          else p)
      else
        db.politician_profiles ++
          [{ id := db.nextId, user_id := a.user_id,
             full_name := a.full_name, seat := a.seat,
             county := a.county, constituency := a.constituency,
             party := a.party, bio := a.motivation,
             is_verified := true }]) := by
    rw [hres]
  have happs : (approvePolitician db aid adm).2.politician_applications =
      db.politician_applications.map (fun x =>
        if x.id == aid then { x with status := "approved" } else x) := by
    rw [hres]
  refine ⟨hfst, ?_, ?_, ?_, ?_⟩
  · obtain ⟨u, hu, hid⟩ := huser
    have hb : (u.id == a.user_id) = true := beq_iff_eq.mpr hid
    rw [husers]
    refine ⟨{ u with role := "politician" }, ?_, hid, rfl⟩
    have hm := List.mem_map_of_mem
      (fun v => if v.id == a.user_id then { v with role := "politician" }
        else v) hu
    simpa [hb] using hm
  · intro u' hu' hid'
    rw [husers] at hu'
    obtain ⟨v, hv, rfl⟩ := List.mem_map.mp hu'
    by_cases hb : (v.id == a.user_id) = true
    · simp [hb]
    · simp only [hb, if_false] at hid' ⊢
      exact absurd (beq_iff_eq.mpr hid') hb
  · rw [hprofs]
    by_cases hany : db.politician_profiles.any
        (fun p => p.user_id == a.user_id)
    · obtain ⟨q0, hq0⟩ := countP_le_one_filter hprof
        (List.any_eq_true.mp hany)
      have hmap := filter_map_update (fun q => q.user_id == a.user_id)
        (fun p =>
          { p with full_name := a.full_name, seat := a.seat,
                   county := a.county, constituency := a.constituency,
                   party := a.party, bio := a.motivation,
                   is_verified := true })
        db.politician_profiles (fun _ => rfl)
      refine ⟨{ q0 with full_name := a.full_name, seat := a.seat,
                        county := a.county, constituency := a.constituency,
                        party := a.party, bio := a.motivation,
                        is_verified := true },
        ?_, rfl, rfl, rfl, rfl, rfl, rfl, rfl⟩
      simp only [hany, if_true]
      rw [hmap, hq0]
      rfl
    · refine ⟨{ id := db.nextId, user_id := a.user_id,
                full_name := a.full_name, seat := a.seat, county := a.county,
                constituency := a.constituency, party := a.party,
                bio := a.motivation, is_verified := true },
        ?_, rfl, rfl, rfl, rfl, rfl, rfl, rfl⟩
      simp only [hany, if_false, List.filter_append]
      simp
      intro x hx hxe
      exact hany (List.any_eq_true.mpr ⟨x, hx, beq_iff_eq.mpr hxe⟩)
  · rw [happs]
    have hmap := filter_map_update (fun x => x.id == aid)
      (fun x => { x with status := "approved" })
      db.politician_applications (fun _ => rfl)
    rw [hmap, single_eq_some_iff.mp happ]
    rfl

/-- A voter account for the concrete approval scenario. -/
def voter1 : UserRow :=
  { id := 1, username := "bob", email := "b@x.com",
    password_hash := bcryptHash "pw", role := "voter", is_active := true,
    email_verified := true, verify_code := none, verify_code_expires := none,
    reset_code := none, reset_code_expires := none }

/-- An admin account for the concrete approval scenario. -/
def admin9 : UserRow :=
  { voter1 with id := 9, username := "root", email := "r@x.com",
                role := "admin" }

/-- A pending application of `voter1`. -/
def app5 : ApplicationRow :=
  { id := 5, user_id := 1, full_name := "Bob O", seat := "Governor",
    county := "Nairobi", constituency := "West", party := "P1",
    motivation := "serve", fee := 100, status := "pending" }

/-- A store holding the voter, the admin and the pending application. -/
def dbApprove : DB :=
  { users := [voter1, admin9], politician_applications := [app5],
    politician_profiles := [], ground_updates := [], comments := [],
    ratings := [], nextId := 50 }

/-- Witness for C2 at a concrete input. -/
theorem approve_pending_postconditions_witness :
    (approvePolitician dbApprove 5 9).1 = .okDone ∧
    (approvePolitician dbApprove 5 9).2.politician_applications.filter
        (fun x => x.id == 5) = [{ app5 with status := "approved" }] ∧
    (∃ p, (approvePolitician dbApprove 5 9).2.politician_profiles.filter
          (fun q => q.user_id == 1) = [p] ∧ p.is_verified = true) := by
  have h := approve_pending_postconditions dbApprove 5 9 app5
    (by decide) (by decide) rfl (by decide) (by decide)
  obtain ⟨p, hp, hv, _⟩ := h.2.2.2.1
  exact ⟨h.1, h.2.2.2.2, p, hp, hv⟩

/-! ## C3 — approving a missing or non-pending application -/

/-- C3 (amended, primary version): when the application lookup does not
yield a pending application — the id resolves to no row, or to a row whose
status is not "pending" — the primary approve handler answers an error and
leaves the whole store unchanged. -/
theorem approve_invalid_no_writes (db : DB) (aid adm : Nat)
    (h : ∀ a, single (db.politician_applications.filter
        (fun x => x.id == aid)) = some a → a.status ≠ "pending") :
    (approvePolitician db aid adm).2 = db ∧
    (approvePolitician db aid adm).1 ≠ .okDone := by
  unfold approvePolitician
  by_cases hadm : requireAdmin db adm = true
  · rw [hadm]
    cases hs : single (db.politician_applications.filter
        (fun x => x.id == aid)) with
    | none => simp
    | some a =>
      have := h a hs
      simp [this]
  · simp [hadm]

/-- An application already in the terminal "rejected" state. -/
def appRejected : ApplicationRow :=
  { id := 2, user_id := 1, full_name := "Eve K", seat := "Senator",
    county := "Kisumu", constituency := "East", party := "P2",
    motivation := "again", fee := 50, status := "rejected" }

/-- A store holding the rejected application and its applicant. -/
def dbRejected : DB :=
  { users := [voter1], politician_applications := [appRejected],
    politician_profiles := [], ground_updates := [], comments := [],
    ratings := [], nextId := 20 }

/-- C3 counterexample: the second server version checks only that the
application exists, not that it is pending, and has no admin gate: at a
concrete store holding a rejected application, approve succeeds and writes
— the application status is overwritten to "approved", a profile row is
inserted and the applicant is promoted — refuting the claim that a call on
a non-pending application returns an error and performs no writes. -/
theorem approve_nonpending_writes_v2 :
    appRejected.status = "rejected" ∧
    (approvePoliticianV2 dbRejected 2).1 = .okApproved ∧
    (approvePoliticianV2 dbRejected 2).2.politician_applications =
      [{ appRejected with status := "approved" }] ∧
    (approvePoliticianV2 dbRejected 2).2.politician_profiles ≠ [] ∧
    (approvePoliticianV2 dbRejected 2).2 ≠ dbRejected := by
  refine ⟨by decide, by decide, by decide, by decide, by decide⟩

/-- Witness for C3 at a concrete input: a store with no applications. -/
theorem approve_invalid_no_writes_witness :
    (approvePolitician dbApprove 77 9).2 = dbApprove ∧
    (approvePolitician dbApprove 77 9).1 ≠ .okDone := by
  exact approve_invalid_no_writes dbApprove 77 9
    (fun a ha => by simp [dbApprove, app5, single] at ha)

/-! ## C4 — reachable status transitions of applications -/

/-- C4 (amended): in the primary version, the only change approve makes to
the applications table is pending→approved at the given id, but reject
overwrites the status of the addressed rows to "rejected" whatever their
current status is — so pending→approved, pending→rejected and also
approved→rejected are reachable; only "rejected" is immutable (approve
refuses non-pending applications and reject is idempotent on rejected
rows). -/
theorem application_status_transitions (db : DB) (aid adm : Nat) :
    (∀ x ∈ (approvePolitician db aid adm).2.politician_applications,
        x ∈ db.politician_applications ∨
          ∃ a ∈ db.politician_applications,
            a.id = aid ∧ a.status = "pending" ∧
            x = { a with status := "approved" }) ∧
    (∀ x ∈ (rejectPolitician db aid adm).2.politician_applications,
        x ∈ db.politician_applications ∨
          ∃ a ∈ db.politician_applications,
            a.id = aid ∧ x = { a with status := "rejected" }) := by
  constructor
  · intro x hx
    cases hb : requireAdmin db adm with
    | false =>
      have hres : approvePolitician db aid adm = (.errAdminOnly, db) := by
        unfold approvePolitician
        rw [hb]
        simp
      rw [hres] at hx
      exact Or.inl hx
    | true =>
      cases hs : single (db.politician_applications.filter
          (fun y => y.id == aid)) with
      | none =>
        have hres : approvePolitician db aid adm = (.errInvalidApp, db) := by
          unfold approvePolitician
          rw [hb, hs]
          simp
        rw [hres] at hx
        exact Or.inl hx
      | some a =>
        by_cases hpend : a.status = "pending"
        · have happs :
              (approvePolitician db aid adm).2.politician_applications =
                db.politician_applications.map (fun y =>
                  if y.id == aid then { y with status := "approved" }
                  else y) := by
            unfold approvePolitician
            rw [hb, hs]
            simp [hpend]
          rw [happs] at hx
          obtain ⟨v, hv, rfl⟩ := List.mem_map.mp hx
          by_cases hbv : (v.id == aid) = true
          · have hvf : v ∈ db.politician_applications.filter
                (fun y => y.id == aid) := List.mem_filter.mpr ⟨hv, hbv⟩
            rw [single_eq_some_iff.mp hs] at hvf
            have hva : v = a := by simpa using hvf
            subst hva
            refine Or.inr ⟨v, hv, beq_iff_eq.mp hbv, hpend, ?_⟩
            simp [hbv]
          · simp only [hbv, if_false]
            exact Or.inl hv
        · have hres : approvePolitician db aid adm =
              (.errInvalidApp, db) := by
            unfold approvePolitician
            rw [hb, hs]
            simp [hpend]
          rw [hres] at hx
          exact Or.inl hx
  · intro x hx
    cases hb : requireAdmin db adm with
    | false =>
      have hres : rejectPolitician db aid adm = (.errAdminOnly, db) := by
        unfold rejectPolitician
        rw [hb]
        simp
      rw [hres] at hx
      exact Or.inl hx
    | true =>
      have happs : (rejectPolitician db aid adm).2.politician_applications =
          db.politician_applications.map (fun y =>
            if y.id == aid then { y with status := "rejected" } else y) := by
        unfold rejectPolitician
        rw [hb]
        simp
      rw [happs] at hx
      obtain ⟨v, hv, rfl⟩ := List.mem_map.mp hx
      by_cases hbv : (v.id == aid) = true
      · refine Or.inr ⟨v, hv, beq_iff_eq.mp hbv, ?_⟩
        simp [hbv]
      · simp only [hbv, if_false]
        exact Or.inl hv

/-- An application already in the terminal "approved" state. -/
def appApproved : ApplicationRow := { app5 with id := 3, status := "approved" }

/-- A store holding the approved application and an admin. -/
def dbApproved : DB :=
  { users := [voter1, admin9], politician_applications := [appApproved],
    politician_profiles := [], ground_updates := [], comments := [],
    ratings := [], nextId := 30 }

/-- C4 counterexample: the terminal state "approved" is not immutable — the
reject handler overwrites it to "rejected" without reading the current
status, so the transition approved→rejected is reachable, refuting the
claim that terminal application states never transition further. -/
theorem approved_application_rejected :
    appApproved.status = "approved" ∧
    appApproved ∈ dbApproved.politician_applications ∧
    (rejectPolitician dbApproved 3 9).1 = .okDone ∧
    (rejectPolitician dbApproved 3 9).2.politician_applications =
      [{ appApproved with status := "rejected" }] := by
  refine ⟨by decide, by decide, by decide, by decide⟩

/-! ## C5 — single-use verification and reset codes -/

/-- An account holding both a pending verification code (expiring at time
1000) and a pending reset code (expiring at time 2000). -/
def uVerify : UserRow :=
  { id := 4, username := "vera", email := "v@x.com",
    password_hash := bcryptHash "pw", role := "voter", is_active := true,
    email_verified := false, verify_code := some "111111",
    verify_code_expires := some 1000, reset_code := some "222222",
    reset_code_expires := some 2000 }

/-- A store holding only that account. -/
def dbVerify : DB :=
  { users := [uVerify], politician_applications := [],
    politician_profiles := [], ground_updates := [], comments := [],
    ratings := [], nextId := 1 }

/-- C5 bug evidence, evaluated at the failing input: a successful
verify-email clears the stored code, and a second attempt with the same
code then fails — but the stored expiry `verify_code_expires` is NOT
cleared (it is still the original timestamp), because the source writes
null to the nonexistent column name `verification_code_expires` instead.
Reset-password, by contrast, clears both the code and its expiry, and is
single-use as claimed. -/
theorem verify_email_leaves_expiry_set :
    (verifyEmail dbVerify "v@x.com" "111111" 500).1 = .okVerified ∧
    (verifyEmail dbVerify "v@x.com" "111111" 500).2.users =
      [{ uVerify with email_verified := true, verify_code := none }] ∧
    ({ uVerify with email_verified := true,
                    verify_code := none } : UserRow).verify_code_expires =
      some 1000 ∧
    (verifyEmail (verifyEmail dbVerify "v@x.com" "111111" 500).2
      "v@x.com" "111111" 600).1 = .errInvalid ∧
    (resetPassword dbVerify "v@x.com" "222222" "npw" 500).1 = .okReset ∧
    (resetPassword dbVerify "v@x.com" "222222" "npw" 500).2.users =
      [{ uVerify with password_hash := bcryptHash "npw",
                      reset_code := none, reset_code_expires := none }] ∧
    (resetPassword (resetPassword dbVerify "v@x.com" "222222" "npw" 500).2
      "v@x.com" "222222" "npw2" 600).1 = .errInvalid := by
  refine ⟨by decide, by decide, by decide, by decide, by decide, by decide,
    by decide⟩

/-! ## C6 — at most one politician application per user -/

/-- C6: (1) a valid apply-politician request by a user that already has an
application row — whatever its status — fails with the already-submitted
conflict error and leaves the store unchanged; (2) the handler preserves
the at-most-one-application-per-user invariant. -/
theorem apply_duplicate_conflict :
    (∀ (db : DB) (r : ApplyReq),
        ¬(r.user_id = 0 ∨ r.full_name = "" ∨ r.seat = "" ∨
            r.motivation = "" ∨ r.fee = 0) →
        ¬(r.seat ≠ "President" ∧ r.county = "") →
        db.politician_applications.countP
            (fun a => a.user_id == r.user_id) ≤ 1 →
        (∃ a ∈ db.politician_applications, a.user_id = r.user_id) →
        applyPolitician db r = (.errDuplicate, db)) ∧
    (∀ (db : DB) (r : ApplyReq) (uid : Nat),
        db.politician_applications.countP (fun a => a.user_id == uid) ≤ 1 →
        (applyPolitician db r).2.politician_applications.countP
            (fun a => a.user_id == uid) ≤ 1) := by
  constructor
  · intro db r hv hc hwf hex
    obtain ⟨x, hfil⟩ := countP_le_one_filter hwf (by
      obtain ⟨a, ha, he⟩ := hex
      exact ⟨a, ha, beq_iff_eq.mpr he⟩)
    unfold applyPolitician
    rw [if_neg hv, if_neg hc, hfil]
    rfl
  · intro db r uid hwf
    unfold applyPolitician
    by_cases hv : r.user_id = 0 ∨ r.full_name = "" ∨ r.seat = "" ∨
        r.motivation = "" ∨ r.fee = 0
    · rw [if_pos hv]
      exact hwf
    · rw [if_neg hv]
      by_cases hc : r.seat ≠ "President" ∧ r.county = ""
      · rw [if_pos hc]
        exact hwf
      · rw [if_neg hc]
        cases hs : single (db.politician_applications.filter
            (fun a => a.user_id == r.user_id)) with
        | some a =>
          exact hwf
        | none =>
          show (db.politician_applications ++ [_]).countP _ ≤ 1
          rw [List.countP_append]
          by_cases huid : uid = r.user_id
          · subst huid
            have hne : (db.politician_applications.filter
                (fun a => a.user_id == r.user_id)).length ≠ 1 :=
              single_eq_none_iff.mp hs
            have hlen := List.countP_eq_length_filter
              (fun a => a.user_id == r.user_id) db.politician_applications
            simp only [List.countP_cons, List.countP_nil, beq_self_eq_true,
              if_true]
            omega
          · simp only [List.countP_cons, List.countP_nil]
            rw [if_neg (by
              simp only [beq_iff_eq]
              exact fun h => huid h.symm)]
            omega

/-- Witness for C6 at a concrete input: a second application by the user
who already submitted `app5`. -/
theorem apply_duplicate_conflict_witness :
    applyPolitician dbApprove
      { user_id := 1, full_name := "Bob O", seat := "President",
        county := "", constituency := "", party := "P1",
        motivation := "again", fee := 100 } = (.errDuplicate, dbApprove) := by
  exact apply_duplicate_conflict.1 dbApprove
    { user_id := 1, full_name := "Bob O", seat := "President",
      county := "", constituency := "", party := "P1",
      motivation := "again", fee := 100 }
    (by decide) (by decide) (by decide) (by decide)

/-! ## C7 and C8 — ground reposts -/

/-- C7: reposting an existing ground update succeeds, appends a fresh row
copying the source location, category and content with repost_of set to the
source id, and the repost row is an independent copy: any later edit of the
source row leaves the repost row (looked up by its fresh id) unchanged. The
freshness hypothesis states that the store never reuses ids. -/
theorem ground_repost_copies_fields (db : DB) (uid gid : Nat)
    (orig : GroundRow)
    (hu : uid ≠ 0) (hg : gid ≠ 0)
    (horig : single (db.ground_updates.filter (fun g => g.id == gid)) =
      some orig)
    (hfresh : ∀ g ∈ db.ground_updates, g.id ≠ db.nextId) :
    (groundRepost db uid gid).1 = .okReposted ∧
    (groundRepost db uid gid).2.ground_updates =
      db.ground_updates ++
        [{ id := db.nextId, user_id := uid, location := orig.location,
           category := orig.category, content := orig.content,
           repost_of := some gid }] ∧
    (∀ loc cat cont,
      (editGroundUpdate (groundRepost db uid gid).2 gid
          loc cat cont).ground_updates.filter
        (fun g => g.id == db.nextId) =
      [{ id := db.nextId, user_id := uid, location := orig.location,
         category := orig.category, content := orig.content,
         repost_of := some gid }]) := by
  have hres : groundRepost db uid gid =
      (.okReposted,
        { db with
            ground_updates := db.ground_updates ++
              [{ id := db.nextId, user_id := uid,
                 location := orig.location, category := orig.category,
                 content := orig.content, repost_of := some gid }],
            nextId := db.nextId + 1 }) := by
    unfold groundRepost
    rw [if_neg (by push_neg; exact ⟨hu, hg⟩), horig]
  have hmem : orig ∈ db.ground_updates.filter (fun g => g.id == gid) := by
    rw [single_eq_some_iff.mp horig]
    exact List.mem_singleton.mpr rfl
  obtain ⟨horigl, horigid⟩ := List.mem_filter.mp hmem
  have hgne : gid ≠ db.nextId := by
    rw [← beq_iff_eq.mp horigid]
    exact hfresh orig horigl
  have hground : (groundRepost db uid gid).2.ground_updates =
      db.ground_updates ++
        [{ id := db.nextId, user_id := uid, location := orig.location,
           category := orig.category, content := orig.content,
           repost_of := some gid }] := by
    rw [hres]
  refine ⟨by rw [hres], hground, ?_⟩
  intro loc cat cont
  unfold editGroundUpdate
  rw [hground, List.map_append, List.filter_append]
  have h1 : ((db.ground_updates.map (fun g =>
      if g.id == gid then
        { g with location := loc, category := cat, content := cont }
      else g)).filter (fun g => g.id == db.nextId)) = [] := by
    rw [List.filter_eq_nil_iff]
    intro y hy
    obtain ⟨v, hv, rfl⟩ := List.mem_map.mp hy
    have hvne : v.id ≠ db.nextId := hfresh v hv
    by_cases hb : (v.id == gid) = true
    · simp only [hb, if_true]
      simpa using hvne
    · simp only [hb, if_false]
      simpa using hvne
  rw [h1, List.nil_append]
  have hfn : (db.nextId == gid) = false :=
    beq_eq_false_iff_ne.mpr (fun h => hgne h.symm)
  simp [hfn, Ne.symm hgne]

/-- A concrete ground update to repost. -/
def ground1 : GroundRow :=
  { id := 1, user_id := 2, location := "Nairobi", category := "rally",
    content := "crowd at noon", repost_of := none }

/-- A store holding that ground update. -/
def dbGround : DB :=
  { users := [voter1], politician_applications := [],
    politician_profiles := [], ground_updates := [ground1], comments := [],
    ratings := [], nextId := 7 }

/-- Witness for C7 at a concrete input. -/
theorem ground_repost_copies_fields_witness :
    (groundRepost dbGround 3 1).1 = .okReposted ∧
    (groundRepost dbGround 3 1).2.ground_updates =
      dbGround.ground_updates ++
        [{ id := 7, user_id := 3, location := "Nairobi",
           category := "rally", content := "crowd at noon",
           repost_of := some 1 }] ∧
    (editGroundUpdate (groundRepost dbGround 3 1).2 1
        "Mombasa" "edited" "changed").ground_updates.filter
      (fun g => g.id == 7) =
    [{ id := 7, user_id := 3, location := "Nairobi", category := "rally",
       content := "crowd at noon", repost_of := some 1 }] := by
  have h := ground_repost_copies_fields dbGround 3 1 ground1
    (by decide) (by decide) (by decide) (by decide)
  exact ⟨h.1, h.2.1, h.2.2 "Mombasa" "edited" "changed"⟩

/-- C8 bug evidence, evaluated at the failing input: a repost whose
ground_id resolves to no ground_updates row inserts nothing, but instead of
answering a not-found error the handler throws a TypeError while reading a
field of the null lookup result — there is no try/catch around the handler
body, so no error response reaches the caller. -/
theorem ground_repost_missing_source_throws :
    (groundRepost dbGround 3 99).1 = .thrownTypeError ∧
    (groundRepost dbGround 3 99).2 = dbGround := by
  refine ⟨by decide, by decide⟩

/-! ## C9 — rating summary -/

theorem foldl_add_rating (l : List RatingRow) (init : ℚ) :
    l.foldl (fun s q => s + q.rating) init =
      init + (l.map (fun q => q.rating)).sum := by
  induction l generalizing init with
  | nil => simp
  | cons a t ih =>
    simp only [List.foldl_cons, List.map_cons, List.sum_cons, ih]
    ring

/-- C9: for every target the rating summary answers a successful response
whose count is the number of rating rows stored for that target and whose
average is the arithmetic mean of their rating values rounded to one
decimal place; with zero rows it answers average 0, count 0 rather than an
error. -/
theorem ratings_summary_mean (db : DB) (tid : Nat) :
    ∃ avg cnt, ratingsSummary db tid = .okSummary avg cnt ∧
      cnt = db.ratings.countP (fun q =>
        q.target_type == "manifesto" && q.target_id == tid) ∧
      ((cnt = 0 ∧ avg = 0) ∨
        (0 < cnt ∧ avg = round1
          ((((db.ratings.filter (fun q =>
                q.target_type == "manifesto" && q.target_id == tid)).map
              (fun q => q.rating)).sum) / cnt))) := by
  have hlen := (List.countP_eq_length_filter
    (fun q => q.target_type == "manifesto" && q.target_id == tid)
    db.ratings).symm
  simp only [ratingsSummary]
  by_cases h0 : (db.ratings.filter (fun q =>
      q.target_type == "manifesto" && q.target_id == tid)).length = 0
  · rw [if_pos h0]
    exact ⟨0, 0, rfl, by omega, Or.inl ⟨rfl, rfl⟩⟩
  · rw [if_neg h0]
    refine ⟨_, _, rfl, by omega, Or.inr ⟨by omega, ?_⟩⟩
    rw [foldl_add_rating, zero_add, hlen]

/-- The zero-row case of the rating summary at a concrete store. -/
theorem ratings_summary_zero_rows_example :
    ratingsSummary dbGround 42 = .okSummary 0 0 := by decide

/-! ## C10 — all comment and rating writes target manifestos -/

/-- C10: every comments row present after POST /comment, and every ratings
row present after POST /rate, either was already stored or carries
target_type "manifesto" — the handlers hard-code the target type and ignore
any target_type the caller supplies (the requests carry an arbitrary
caller-chosen target_type field that the source never reads). -/
theorem written_target_type_fixed (db : DB) (c : CommentReq) (r : RateReq) :
    (∀ x ∈ (postComment db c).2.comments,
        x ∈ db.comments ∨ x.target_type = "manifesto") ∧
    (∀ x ∈ (postRate db r).2.ratings,
        x ∈ db.ratings ∨ x.target_type = "manifesto") := by
  constructor
  · intro x hx
    have hcase : (postComment db c).2.comments = db.comments ∨
        (postComment db c).2.comments = db.comments ++
          [{ id := db.nextId, user_id := c.user_id,
             target_type := "manifesto", target_id := c.target_id,
             content := c.content }] := by
      unfold postComment
      by_cases h1 : c.user_id = 0 ∨ c.target_id = 0 ∨ c.content = ""
      · rw [if_pos h1]
        exact Or.inl rfl
      · rw [if_neg h1]
        by_cases h2 : (bannedWords.any
            (fun w => strHasSub (lowerStr c.content) w)) = true
        · rw [if_pos h2]
          exact Or.inl rfl
        · rw [if_neg h2]
          cases hs : single (db.users.filter (fun u => u.id == c.user_id))
            with
          | none => exact Or.inl rfl
          | some u => exact Or.inr rfl
    rcases hcase with h | h
    · rw [h] at hx
      exact Or.inl hx
    · rw [h] at hx
      rcases List.mem_append.mp hx with h' | h'
      · exact Or.inl h'
      · right
        rw [List.mem_singleton.mp h']
  · intro x hx
    have hcase : (postRate db r).2.ratings = db.ratings ∨
        (postRate db r).2.ratings = db.ratings.map (fun q =>
          if q.user_id == r.user_id && q.target_type == "manifesto" &&
              q.target_id == r.target_id then
            { user_id := r.user_id, target_type := "manifesto",
              target_id := r.target_id, rating := r.rating }
          else q) ∨
        (postRate db r).2.ratings = db.ratings ++
          [{ user_id := r.user_id, target_type := "manifesto",
             target_id := r.target_id, rating := r.rating }] := by
      unfold postRate
      by_cases h1 : r.user_id = 0 ∨ r.target_id = 0 ∨ r.rating = 0
      · rw [if_pos h1]
        exact Or.inl rfl
      · rw [if_neg h1]
        by_cases h2 : r.rating < 1 ∨ 5 < r.rating
        · rw [if_pos h2]
          exact Or.inl rfl
        · rw [if_neg h2]
          by_cases h3 : (db.ratings.any (fun q =>
              q.user_id == r.user_id && q.target_type == "manifesto" &&
              q.target_id == r.target_id)) = true
          · rw [if_pos h3]
            exact Or.inr (Or.inl rfl)
          · rw [if_neg h3]
            exact Or.inr (Or.inr rfl)
    rcases hcase with h | h | h
    · rw [h] at hx
      exact Or.inl hx
    · rw [h] at hx
      obtain ⟨v, hv, rfl⟩ := List.mem_map.mp hx
      by_cases hb : (v.user_id == r.user_id && v.target_type == "manifesto"
          && v.target_id == r.target_id) = true
      · rw [if_pos hb]
        exact Or.inr rfl
      · rw [if_neg hb]
        exact Or.inl hv
    · rw [h] at hx
      rcases List.mem_append.mp hx with h' | h'
      · exact Or.inl h'
      · right
        rw [List.mem_singleton.mp h']

/-- Witness for C10 at a concrete input: the caller asks for target_type
"promise", yet the stored rows carry "manifesto". -/
theorem written_target_type_fixed_witness :
    (({ id := 50, user_id := 1, target_type := "manifesto", target_id := 2,
        content := "nice plan" } : CommentRow) ∈ dbApprove.comments ∨
      ({ id := 50, user_id := 1, target_type := "manifesto", target_id := 2,
         content := "nice plan" } : CommentRow).target_type =
        "manifesto") ∧
    (({ user_id := 1, target_type := "manifesto", target_id := 2,
        rating := 4 } : RatingRow) ∈ dbApprove.ratings ∨
      ({ user_id := 1, target_type := "manifesto", target_id := 2,
         rating := 4 } : RatingRow).target_type = "manifesto") := by
  constructor
  · exact (written_target_type_fixed dbApprove
      { user_id := 1, target_id := 2, content := "nice plan",
        target_type := "promise" }
      { user_id := 1, target_id := 2, rating := 4,
        target_type := "promise" }).1 _ (by decide)
  · exact (written_target_type_fixed dbApprove
      { user_id := 1, target_id := 2, content := "nice plan",
        target_type := "promise" }
      { user_id := 1, target_id := 2, rating := 4,
        target_type := "promise" }).2 _ (by decide)

/-- Witness for C4 at a concrete input. -/
theorem application_status_transitions_witness :
    ({ appApproved with status := "rejected" } : ApplicationRow) ∈
        dbApproved.politician_applications ∨
      ∃ a ∈ dbApproved.politician_applications,
        a.id = 3 ∧ ({ appApproved with status := "rejected" } :
          ApplicationRow) = { a with status := "rejected" } := by
  refine (application_status_transitions dbApproved 3 9).2
    { appApproved with status := "rejected" } ?_
  decide
